import Mathlib

/-!
Verification of the rolling sample buffer, autoscaling projection and
line-framing logic of the `AlanFord/serial` teaching examples.

The Python sources are shallowly embedded over `ℚ` (exact rational
arithmetic in place of IEEE floats) and `List Char` (in place of Python
strings).  Each definition below is translated from one concrete Python
function of the repository; the doc comment names the file and symbol it
embeds.
-/

namespace Serial

/-- Epsilon used by every autoscaling variant: the literal `1e-5` appearing in
`max_X = max(self.Line1) + 1e-5` etc. -/
def eps : ℚ := 1 / 100000

/-- Python `max(l)` over a nonempty list of numbers (raises on `[]`, hence
`Option`): the maximum is the left fold of binary `max` over the list. -/
def pyMax : List ℚ → Option ℚ
  | [] => none
  | a :: t => some (t.foldl max a)

/-- Python `min(l)` over a nonempty list of numbers (raises on `[]`). -/
def pyMin : List ℚ → Option ℚ
  | [] => none
  | a :: t => some (t.foldl min a)

/-- Python `l[-k:]`: the last `k` elements of `l` (the whole list when
`k ≥ len(l)`, which matches truncated `Nat` subtraction). -/
def lastN (k : ℕ) (l : List ℚ) : List ℚ := l.drop (l.length - k)

/-- Python 3 `round(q)` on an exact rational: round half to even. -/
def pyRound (q : ℚ) : ℤ :=
  let f := ⌊q⌋
  let r := q - f
  if r < 1 / 2 then f
  else if 1 / 2 < r then f + 1
  else if f % 2 = 0 then f else f + 1

/-- Python `int(q)` on a real value: truncation toward zero. -/
def pyInt (q : ℚ) : ℤ := if 0 ≤ q then ⌊q⌋ else -⌊-q⌋

/-- The two parallel rolling data lists shared by the tkinter and pyqt5
examples (`self.Line1`, `self.Line2`, `self.npoints`). -/
structure SampleBuffer where
  npoints : ℕ
  Line1 : List ℚ
  Line2 : List ℚ
  deriving DecidableEq, Repr

/-- Construction state of the examples
(`self.Line1 = [0 for x in range(self.npoints)]`, same for `Line2`). -/
def initBuffer (cap : ℕ) : SampleBuffer :=
  ⟨cap, List.replicate cap 0, List.replicate cap 0⟩

/-- `App.append_values` of `02_graph_tkinter.py` / `04_roundtrip_tkinter.py`
lines 99-112 and `GuiPart.append_values` of `05_threads_tkinter.py`:
`self.Line1.append(x); self.Line1 = self.Line1[-1 * self.npoints:]` and the
same for `Line2`. -/
def append_values (s : SampleBuffer) (x y : ℚ) : SampleBuffer :=
  { s with
    Line1 := lastN s.npoints (s.Line1 ++ [x])
    Line2 := lastN s.npoints (s.Line2 ++ [y]) }

/-- `MainWindow.append_data` of `05_threads_pyqt5.py` lines 179-194:
`self.Line1 = self.Line1[1:]; self.Line1.append(int(x))` and the same for
`Line2`.  Note the truncating `int(...)` conversion. -/
def append_data (s : SampleBuffer) (x y : ℚ) : SampleBuffer :=
  { s with
    Line1 := s.Line1.drop 1 ++ [((pyInt x : ℤ) : ℚ)]
    Line2 := s.Line2.drop 1 ++ [((pyInt y : ℤ) : ℚ)] }

/-- The autoscale block shared verbatim by `MainWindow.update_plot_data`
(`05_threads_pyqt5.py` lines 201-208), `GuiPart.replot` / `App.replot`
(`05_threads_tkinter.py` lines 136-140, `04_roundtrip_tkinter.py` lines
119-124) and `GraphWidget.add_value` (`graph_widget.py` lines 63-67):
`max_X = max(Line1) + 1e-5; min_X = min(Line1) - 1e-5;` likewise for `Line2`,
then `max_all = max(max_X, -min_X, max_Y, -min_Y)`.  `none` when a list is
empty (Python `max([])` raises). -/
def computeScale (l1 l2 : List ℚ) : Option ℚ :=
  match pyMax l1, pyMin l1, pyMax l2, pyMin l2 with
  | some mx1, some mn1, some mx2, some mn2 =>
      some (max (max (max (mx1 + eps) (-(mn1 - eps))) (mx2 + eps)) (-(mn2 - eps)))
  | _, _, _, _ => none

/-- The flat coordinate list `[x0, y0, x1, y1, ...]` built by the plotting
loops (`coordsX.append(x); coordsX.append(...)` per index, and the single
list `y` of `GraphWidget.scale_values`). -/
def coordsList (fx fy : ℕ → ℚ) (n : ℕ) : List ℚ :=
  ((List.range n).map fun k => [fx k, fy k]).join

end Serial

namespace Serial

/-- `GuiPart.replot` / `App.replot` of the tkinter examples
(`04_roundtrip_tkinter.py` lines 114-135, `05_threads_tkinter.py` lines
129-151): `x = (w * n) / self.npoints`, vertical coordinate
`hh * (1 + self.Line1[n] / max_all)` (and likewise `Line2`), where `w` is the
cached canvas width and `hh` the cached canvas half height.  Returns the two
flat coordinate lists handed to `canvas.coords`. -/
def replot (s : SampleBuffer) (w hh : ℚ) : Option (List ℚ × List ℚ) :=
  match computeScale s.Line1 s.Line2 with
  | none => none
  | some max_all =>
      some
        (coordsList (fun n => (w * n) / s.npoints)
          (fun n => hh * (1 + s.Line1.getD n 0 / max_all)) s.npoints,
         coordsList (fun n => (w * n) / s.npoints)
          (fun n => hh * (1 + s.Line2.getD n 0 / max_all)) s.npoints)

/-- `MainWindow.update_plot_data` of `05_threads_pyqt5.py` lines 196-220:
`hh = self.label.pixmap().height()//2` (integer floor division),
`x = (w * n) / self.npoints`, vertical coordinate
`hh * (1 - self.Line1[n] / max_all)` (and likewise `Line2`). -/
def update_plot_data (s : SampleBuffer) (w : ℚ) (h : ℕ) : Option (List ℚ × List ℚ) :=
  let hh : ℚ := ((h / 2 : ℕ) : ℚ)
  match computeScale s.Line1 s.Line2 with
  | none => none
  | some max_all =>
      some
        (coordsList (fun n => (w * n) / s.npoints)
          (fun n => hh * (1 - s.Line1.getD n 0 / max_all)) s.npoints,
         coordsList (fun n => (w * n) / s.npoints)
          (fun n => hh * (1 - s.Line2.getD n 0 / max_all)) s.npoints)

/-- State of `GraphWidget` (`graph_widget.py`): the two deques
(`deque([0] * data_width, maxlen=data_width)`), `data_width`, and the cached
scale `max_all`. -/
structure GraphWidget where
  data_width : ℕ
  Line1 : List ℚ
  Line2 : List ℚ
  max_all : ℚ
  deriving DecidableEq, Repr

/-- The literal `self.default_data_range = 10` of `GraphWidget.__init__`. -/
def default_data_range : ℚ := 10

/-- `GraphWidget.__init__` (`graph_widget.py` lines 41-53): zero-filled deques
and `self.max_all = self.default_data_range`. -/
def initGraphWidget (dw : ℕ) : GraphWidget :=
  ⟨dw, List.replicate dw 0, List.replicate dw 0, default_data_range⟩

/-- `GraphWidget.add_value` (`graph_widget.py` lines 55-69): append to both
deques (a `maxlen` deque keeps the last `data_width` entries) and recompute
`self.max_all` by the same `max_X/min_X/max_Y/min_Y` block embedded as
`computeScale`. -/
def add_value (g : GraphWidget) (x y : ℚ) : Option GraphWidget :=
  let l1 := lastN g.data_width (g.Line1 ++ [x])
  let l2 := lastN g.data_width (g.Line2 ++ [y])
  match computeScale l1 l2 with
  | some m => some { g with Line1 := l1, Line2 := l2, max_all := m }
  | none => none

/-- The divisor selection at the top of `GraphWidget.scale_values`
(`graph_widget.py` lines 78-80): `data_range = self.max_all; if data_range ==
0.0: data_range = self.default_data_range`. -/
def data_range (g : GraphWidget) : ℚ :=
  if g.max_all = 0 then default_data_range else g.max_all

/-- `GraphWidget.scale_values` (`graph_widget.py` lines 71-91): for each
index `n`, append `n * x_scale` (with `x_scale = self.width() /
self.data_width`) and `self.height()/2 - round(values[n] / data_range *
self.height() / 2)` to one flat list. -/
def scale_values (g : GraphWidget) (w h : ℚ) (values : List ℚ) : List ℚ :=
  let x_scale := w / (g.data_width : ℚ)
  coordsList (fun n => (n : ℚ) * x_scale)
    (fun n => h / 2 - ((pyRound (values.getD n 0 / data_range g * h / 2) : ℤ) : ℚ))
    g.data_width

end Serial

namespace Serial

/- Helper lemmas. -/

theorem lastN_length (k : ℕ) (l : List ℚ) : (lastN k l).length = min k l.length := by
  simp only [lastN, List.length_drop]
  omega

theorem le_foldl_max (l : List ℚ) (a : ℚ) : a ≤ l.foldl max a := by
  induction l generalizing a with
  | nil => exact le_refl a
  | cons b t ih =>
      simp only [List.foldl_cons]
      exact le_trans (le_max_left a b) (ih (max a b))

theorem foldl_min_le (l : List ℚ) (a : ℚ) : l.foldl min a ≤ a := by
  induction l generalizing a with
  | nil => exact le_refl a
  | cons b t ih =>
      simp only [List.foldl_cons]
      exact le_trans (ih (min a b)) (min_le_left a b)

theorem pyMin_le_pyMax {l : List ℚ} {mx mn : ℚ}
    (hmx : pyMax l = some mx) (hmn : pyMin l = some mn) : mn ≤ mx := by
  cases l with
  | nil => simp [pyMax] at hmx
  | cons a t =>
      simp only [pyMax, pyMin, Option.some.injEq] at hmx hmn
      calc mn = t.foldl min a := hmn.symm
        _ ≤ a := foldl_min_le t a
        _ ≤ t.foldl max a := le_foldl_max t a
        _ = mx := hmx

theorem foldl_max_const {l : List ℚ} {a : ℚ} (h : ∀ x ∈ l, x ≤ a) :
    l.foldl max a = a := by
  induction l with
  | nil => rfl
  | cons b t ih =>
      simp only [List.foldl_cons]
      rw [max_eq_left (h b (List.mem_cons_self b t))]
      exact ih fun x hx => h x (List.mem_cons_of_mem b hx)

theorem foldl_min_const {l : List ℚ} {a : ℚ} (h : ∀ x ∈ l, a ≤ x) :
    l.foldl min a = a := by
  induction l with
  | nil => rfl
  | cons b t ih =>
      simp only [List.foldl_cons]
      rw [min_eq_left (h b (List.mem_cons_self b t))]
      exact ih fun x hx => h x (List.mem_cons_of_mem b hx)

theorem pyMax_replicate_zero {n : ℕ} (h : 0 < n) :
    pyMax (List.replicate n 0) = some 0 := by
  cases n with
  | zero => omega
  | succ m =>
      simp only [List.replicate_succ, pyMax, Option.some.injEq]
      exact foldl_max_const fun x hx => le_of_eq (List.eq_of_mem_replicate hx)

theorem pyMin_replicate_zero {n : ℕ} (h : 0 < n) :
    pyMin (List.replicate n 0) = some 0 := by
  cases n with
  | zero => omega
  | succ m =>
      simp only [List.replicate_succ, pyMin, Option.some.injEq]
      exact foldl_min_const fun x hx => ge_of_eq (List.eq_of_mem_replicate hx)

theorem coordsList_succ (fx fy : ℕ → ℚ) (n : ℕ) :
    coordsList fx fy (n + 1) = coordsList fx fy n ++ [fx n, fy n] := by
  simp [coordsList, List.range_succ]

theorem coordsList_length (fx fy : ℕ → ℚ) (n : ℕ) :
    (coordsList fx fy n).length = 2 * n := by
  induction n with
  | zero => rfl
  | succ m ih =>
      rw [coordsList_succ, List.length_append, ih]
      simp
      omega

theorem coordsList_get_even {fx fy : ℕ → ℚ} {n i : ℕ} (h : i < n) :
    (coordsList fx fy n).get? (2 * i) = some (fx i) := by
  induction n with
  | zero => omega
  | succ m ih =>
      rw [coordsList_succ]
      rcases Nat.lt_succ_iff_lt_or_eq.mp h with h' | rfl
      · rw [List.get?_append]
        · exact ih h'
        · rw [coordsList_length]; omega
      · rw [List.get?_append_right (by rw [coordsList_length])]
        rw [coordsList_length]
        simp

theorem coordsList_get_odd {fx fy : ℕ → ℚ} {n i : ℕ} (h : i < n) :
    (coordsList fx fy n).get? (2 * i + 1) = some (fy i) := by
  induction n with
  | zero => omega
  | succ m ih =>
      rw [coordsList_succ]
      rcases Nat.lt_succ_iff_lt_or_eq.mp h with h' | rfl
      · rw [List.get?_append]
        · exact ih h'
        · rw [coordsList_length]; omega
      · rw [List.get?_append_right (by rw [coordsList_length]; omega)]
        rw [coordsList_length]
        have h2 : 2 * i + 1 - 2 * i = 1 := by omega
        rw [h2]
        simp

end Serial

namespace Serial

/-- Claim C3: for every sequence of `append_values` calls applied to a buffer
constructed with `capacity` zero entries per channel, both channels always
have length exactly `capacity` (the channels never differ in length and never
grow or shrink). -/
theorem C3_fixed_length (cap : ℕ) (ps : List (ℚ × ℚ)) :
    (ps.foldl (fun s q => append_values s q.1 q.2) (initBuffer cap)).Line1.length = cap ∧
    (ps.foldl (fun s q => append_values s q.1 q.2) (initBuffer cap)).Line2.length = cap := by
  suffices h : ∀ s : SampleBuffer, s.npoints = cap → s.Line1.length = cap →
      s.Line2.length = cap →
      (ps.foldl (fun s q => append_values s q.1 q.2) s).Line1.length = cap ∧
      (ps.foldl (fun s q => append_values s q.1 q.2) s).Line2.length = cap by
    exact h (initBuffer cap) rfl (List.length_replicate cap 0) (List.length_replicate cap 0)
  induction ps with
  | nil => exact fun s h1 h2 h3 => ⟨h2, h3⟩
  | cons q t ih =>
      intro s h1 h2 h3
      simp only [List.foldl_cons]
      refine ih (append_values s q.1 q.2) h1 ?_ ?_ <;>
        simp [append_values, lastN_length, h1, h2, h3]

theorem max_abs_pair {mx mn : ℚ} (h : mn ≤ mx) : max mx (-mn) = max |mx| |mn| := by
  apply le_antisymm
  · apply max_le
    · exact le_trans (le_abs_self mx) (le_max_left _ _)
    · exact le_trans (neg_le_abs mn) (le_max_right _ _)
  · apply max_le
    · rcases abs_cases mx with ⟨h1, _⟩ | ⟨h1, h2⟩
      · rw [h1]; exact le_max_left _ _
      · rw [h1]; exact le_trans (neg_le_neg h) (le_max_right _ _)
    · rcases abs_cases mn with ⟨h1, _⟩ | ⟨h1, _⟩
      · rw [h1]; exact le_trans h (le_max_left _ _)
      · rw [h1]; exact le_max_right _ _

theorem computeScale_eq {l1 l2 : List ℚ} {mx1 mn1 mx2 mn2 : ℚ}
    (h1 : pyMax l1 = some mx1) (h2 : pyMin l1 = some mn1)
    (h3 : pyMax l2 = some mx2) (h4 : pyMin l2 = some mn2) :
    computeScale l1 l2 = some (max (max (max |mx1| |mn1|) |mx2|) |mn2| + eps) := by
  have ha := pyMin_le_pyMax h1 h2
  have hb := pyMin_le_pyMax h3 h4
  unfold computeScale
  rw [h1, h2, h3, h4]
  show some (max (max (max (mx1 + eps) (-(mn1 - eps))) (mx2 + eps)) (-(mn2 - eps))) =
    some (max (max (max |mx1| |mn1|) |mx2|) |mn2| + eps)
  congr 1
  have e1 : -(mn1 - eps) = -mn1 + eps := by ring
  have e2 : -(mn2 - eps) = -mn2 + eps := by ring
  rw [e1, e2, max_add_add_right, max_add_add_right, max_add_add_right]
  congr 1
  calc max (max (max mx1 (-mn1)) mx2) (-mn2)
      = max (max mx1 (-mn1)) (max mx2 (-mn2)) := max_assoc _ _ _
    _ = max (max |mx1| |mn1|) (max |mx2| |mn2|) := by
        rw [max_abs_pair ha, max_abs_pair hb]
    _ = max (max (max |mx1| |mn1|) |mx2|) |mn2| := (max_assoc _ _ _).symm

theorem computeScale_eq_some_elim {l1 l2 : List ℚ} {m : ℚ}
    (h : computeScale l1 l2 = some m) :
    ∃ mx1 mn1 mx2 mn2, pyMax l1 = some mx1 ∧ pyMin l1 = some mn1 ∧
      pyMax l2 = some mx2 ∧ pyMin l2 = some mn2 ∧
      m = max (max (max (mx1 + eps) (-(mn1 - eps))) (mx2 + eps)) (-(mn2 - eps)) := by
  rcases l1 with _ | ⟨a1, t1⟩
  · exact Option.noConfusion h
  rcases l2 with _ | ⟨a2, t2⟩
  · exact Option.noConfusion h
  exact ⟨t1.foldl max a1, t1.foldl min a1, t2.foldl max a2, t2.foldl min a2,
    rfl, rfl, rfl, rfl, (Option.some.inj h).symm⟩

theorem eps_le_of_computeScale {l1 l2 : List ℚ} {m : ℚ}
    (h : computeScale l1 l2 = some m) : eps ≤ m := by
  obtain ⟨mx1, mn1, mx2, mn2, h1, h2, h3, h4, rfl⟩ := computeScale_eq_some_elim h
  have ha := pyMin_le_pyMax h1 h2
  have key : eps ≤ max (mx1 + eps) (-(mn1 - eps)) := by
    rcases le_or_lt 0 mx1 with h0 | h0
    · exact le_trans (by linarith) (le_max_left _ _)
    · exact le_trans (by linarith) (le_max_right _ _)
  exact le_trans key (le_trans (le_max_left _ _) (le_max_left _ _))

/-- The scale formula exactly as the spec words it, for comparison with the
code's `computeScale`:
`max(|max(channelA)|, |min(channelA)|, |max(channelB)|, |min(channelB)|, epsilon)`. -/
def specScale (l1 l2 : List ℚ) : Option ℚ :=
  match pyMax l1, pyMin l1, pyMax l2, pyMin l2 with
  | some mx1, some mn1, some mx2, some mn2 =>
      some (max (max (max (max |mx1| |mn1|) |mx2|) |mn2|) eps)
  | _, _, _, _ => none

theorem specScale_eq {l1 l2 : List ℚ} {mx1 mn1 mx2 mn2 : ℚ}
    (h1 : pyMax l1 = some mx1) (h2 : pyMin l1 = some mn1)
    (h3 : pyMax l2 = some mx2) (h4 : pyMin l2 = some mn2) :
    specScale l1 l2 = some (max (max (max (max |mx1| |mn1|) |mx2|) |mn2|) eps) := by
  unfold specScale
  rw [h1, h2, h3, h4]

/-- Claim C4: FIFO eviction.  With `capacity = 3`, after appending the pairs
`(1,10), (2,20), (3,30), (4,40)` to the zero-initialised buffer, the channels
hold `[2,3,4]` and `[20,30,40]` in oldest-first order. -/
theorem C4_fifo_eviction :
    ([((1 : ℚ), (10 : ℚ)), (2, 20), (3, 30), (4, 40)].foldl
        (fun s q => append_values s q.1 q.2) (initBuffer 3)).Line1 = [2, 3, 4] ∧
    ([((1 : ℚ), (10 : ℚ)), (2, 20), (3, 30), (4, 40)].foldl
        (fun s q => append_values s q.1 q.2) (initBuffer 3)).Line2 = [20, 30, 40] := by
  constructor <;> rfl

/-- Claim C2 (amended): for every buffer state the code's autoscale factor
equals `max(|max(channelA)|, |min(channelA)|, |max(channelB)|, |min(channelB)|)
+ epsilon` — the epsilon is added on top of the maximum rather than being one
of its arguments — and is therefore within `epsilon` above the spec's formula
`max(..., epsilon)`. -/
theorem C2_scale_formula (l1 l2 : List ℚ) (mx1 mn1 mx2 mn2 : ℚ)
    (h1 : pyMax l1 = some mx1) (h2 : pyMin l1 = some mn1)
    (h3 : pyMax l2 = some mx2) (h4 : pyMin l2 = some mn2) :
    computeScale l1 l2 = some (max (max (max |mx1| |mn1|) |mx2|) |mn2| + eps) ∧
    ∀ m s : ℚ, computeScale l1 l2 = some m → specScale l1 l2 = some s →
      s ≤ m ∧ m ≤ s + eps := by
  have hmain := computeScale_eq h1 h2 h3 h4
  refine ⟨hmain, fun m s hm hs => ?_⟩
  rw [hmain, Option.some.injEq] at hm
  rw [specScale_eq h1 h2 h3 h4, Option.some.injEq] at hs
  subst hm
  subst hs
  have hM : (0 : ℚ) ≤ max (max (max |mx1| |mn1|) |mx2|) |mn2| :=
    le_trans (abs_nonneg mn2) (le_max_right _ _)
  have heps : (0 : ℚ) ≤ eps := by norm_num [eps]
  constructor
  · exact max_le (le_add_of_nonneg_right heps) (le_add_of_nonneg_left hM)
  · exact add_le_add_right (le_max_left _ _) eps

/-- Claim C2, counterexample to the exact formula: for
`channelA = [-5, 3, 0]`, `channelB = [1, -2, 4]` the code's scale is
`5 + 1e-5`, while the spec formula `max(|max A|, |min A|, |max B|, |min B|,
epsilon)` gives exactly `5`. -/
theorem C2_counterexample :
    computeScale [(-5 : ℚ), 3, 0] [(1 : ℚ), -2, 4] = some (500001 / 100000) ∧
    specScale [(-5 : ℚ), 3, 0] [(1 : ℚ), -2, 4] = some 5 ∧
    (500001 / 100000 : ℚ) ≠ 5 := by
  refine ⟨?_, ?_, by norm_num⟩
  · norm_num [computeScale, pyMax, pyMin, List.foldl, max_def, min_def, eps]
  · norm_num [specScale, pyMax, pyMin, List.foldl, max_def, min_def, eps, abs]

/-- Claim C2, witness: the amended formula applied to the spec's own example
lists. -/
theorem C2_witness :
    computeScale [(-5 : ℚ), 3, 0] [(1 : ℚ), -2, 4] =
      some (max (max (max |(3 : ℚ)| |(-5 : ℚ)|) |(4 : ℚ)|) |(-2 : ℚ)| + eps) :=
  (C2_scale_formula [(-5 : ℚ), 3, 0] [(1 : ℚ), -2, 4] 3 (-5) 4 (-2)
    (by norm_num [pyMax, List.foldl, max_def])
    (by norm_num [pyMin, List.foldl, min_def])
    (by norm_num [pyMax, List.foldl, max_def])
    (by norm_num [pyMin, List.foldl, min_def])).1

/-- Claim C5: for a freshly constructed all-zero buffer of any positive
capacity, the recomputed autoscale factor is exactly `epsilon`, which is
nonzero and positive, so the projection's division is well-defined in the
startup state. -/
theorem C5_zero_buffer_scale (n : ℕ) (hn : 0 < n) :
    computeScale (List.replicate n 0) (List.replicate n 0) = some eps ∧
    eps ≠ 0 ∧ 0 < eps := by
  refine ⟨?_, by norm_num [eps], by norm_num [eps]⟩
  unfold computeScale
  rw [pyMax_replicate_zero hn, pyMin_replicate_zero hn]
  norm_num

/-- Claim C5, witness: the spec's concrete instance, `capacity = 4`. -/
theorem C5_witness :
    computeScale (List.replicate 4 0) (List.replicate 4 0) = some eps ∧
    eps ≠ 0 ∧ 0 < eps :=
  C5_zero_buffer_scale 4 (by norm_num)

/-- Claim C10: the divisor of `GraphWidget.scale_values` is never zero: the
`data_range` actually divided by is `default_data_range = 10` when the cached
`max_all` is zero and the (nonzero) `max_all` otherwise, and after any
successful `add_value` the cached `max_all` is at least `epsilon = 1e-5`. -/
theorem C10_divisor_nonzero :
    (∀ g : GraphWidget, data_range g ≠ 0) ∧
    (∀ (g : GraphWidget) (x y : ℚ) (g' : GraphWidget),
        add_value g x y = some g' → eps ≤ g'.max_all) := by
  refine ⟨fun g => ?_, fun g x y g' h => ?_⟩
  · by_cases h0 : g.max_all = 0 <;> simp [data_range, h0, default_data_range]
  · simp only [add_value] at h
    cases hcs : computeScale (lastN g.data_width (g.Line1 ++ [x]))
        (lastN g.data_width (g.Line2 ++ [y])) with
    | none => rw [hcs] at h; exact Option.noConfusion h
    | some m =>
        rw [hcs] at h
        have hg := (Option.some.inj h).symm
        rw [hg]
        exact eps_le_of_computeScale hcs

/-- Claim C10, witness: one concrete `add_value` step from the initial
widget state, whose resulting cached scale is exactly `epsilon`. -/
theorem C10_witness :
    eps ≤ (GraphWidget.mk 2 [0, 0] [0, 0] eps).max_all :=
  C10_divisor_nonzero.2 (GraphWidget.mk 2 [0, 0] [0, 0] default_data_range) 0 0
    (GraphWidget.mk 2 [0, 0] [0, 0] eps)
    (by norm_num [add_value, lastN, computeScale, pyMax, pyMin, List.foldl, max_def,
      min_def, eps])

theorem getD_zero {l : List ℚ} (h : ∀ v ∈ l, v = 0) (i : ℕ) : l.getD i 0 = 0 := by
  induction l generalizing i with
  | nil => simp
  | cons a t ih =>
      cases i with
      | zero => simpa using h a (List.mem_cons_self a t)
      | succ j =>
          simp only [List.getD_cons_succ]
          exact ih (fun v hv => h v (List.mem_cons_of_mem a hv)) j

theorem pyRound_zero : pyRound 0 = 0 := by norm_num [pyRound]

theorem getLast?_drop {l : List ℚ} {m : ℕ} (h : m < l.length) :
    (l.drop m).getLast? = l.getLast? := by
  induction l generalizing m with
  | nil => simp at h
  | cons a t ih =>
      cases m with
      | zero => rfl
      | succ j =>
          have hj : j < t.length := by simpa using h
          rw [List.drop_succ_cons, ih hj]
          cases t with
          | nil => simp at hj
          | cons b t2 => rw [List.getLast?_cons_cons]

theorem getLast?_lastN {k : ℕ} {l : List ℚ} (hk : 1 ≤ k) (x : ℚ) :
    (lastN k (l ++ [x])).getLast? = some x := by
  unfold lastN
  rw [getLast?_drop, List.getLast?_concat]
  rw [List.length_append]
  simp only [List.length_cons, List.length_nil]
  omega

theorem pyMax_some_ne_nil {l : List ℚ} {mx : ℚ} (h : pyMax l = some mx) : l ≠ [] := by
  intro hl
  subst hl
  exact Option.noConfusion h

/-- Claim C1 (amended): the vertical projection formulas actually used by the
three variants, for every buffer state, canvas size and sample index `i`.
`05_threads_pyqt5.update_plot_data` maps sample `v` to
`hh - hh*v/s` with `hh = ⌊height/2⌋` (positive values above center);
`graph_widget.scale_values` maps it to `height/2 - round(v/s * height/2)`
(positive above center, but rounded to an integer offset); the tkinter
`replot` maps it to `hh + hh*v/s` (positive values below center). -/
theorem C1_projection_formulas :
    (∀ (s : SampleBuffer) (w : ℚ) (h : ℕ) (m : ℚ) (cX cY : List ℚ) (i : ℕ),
        computeScale s.Line1 s.Line2 = some m →
        update_plot_data s w h = some (cX, cY) → i < s.npoints →
        cX.get? (2 * i + 1) =
          some (((h / 2 : ℕ) : ℚ) - ((h / 2 : ℕ) : ℚ) * s.Line1.getD i 0 / m) ∧
        cY.get? (2 * i + 1) =
          some (((h / 2 : ℕ) : ℚ) - ((h / 2 : ℕ) : ℚ) * s.Line2.getD i 0 / m)) ∧
    (∀ (g : GraphWidget) (w h : ℚ) (values : List ℚ) (i : ℕ), i < g.data_width →
        (scale_values g w h values).get? (2 * i + 1) =
          some (h / 2 - ((pyRound (values.getD i 0 / data_range g * h / 2) : ℤ) : ℚ))) ∧
    (∀ (s : SampleBuffer) (w hh m : ℚ) (cX cY : List ℚ) (i : ℕ),
        computeScale s.Line1 s.Line2 = some m →
        replot s w hh = some (cX, cY) → i < s.npoints →
        cX.get? (2 * i + 1) = some (hh + hh * s.Line1.getD i 0 / m) ∧
        cY.get? (2 * i + 1) = some (hh + hh * s.Line2.getD i 0 / m)) := by
  refine ⟨fun s w h m cX cY i hm hu hi => ?_, fun g w h values i hi => ?_,
    fun s w hh m cX cY i hm hr hi => ?_⟩
  · simp only [update_plot_data] at hu
    rw [hm] at hu
    have hp := Option.some.inj hu
    rw [Prod.mk.injEq] at hp
    obtain ⟨rfl, rfl⟩ := hp
    constructor
    · rw [coordsList_get_odd hi]
      congr 1
      ring
    · rw [coordsList_get_odd hi]
      congr 1
      ring
  · simp only [scale_values]
    rw [coordsList_get_odd hi]
  · simp only [replot] at hr
    rw [hm] at hr
    have hp := Option.some.inj hr
    rw [Prod.mk.injEq] at hp
    obtain ⟨rfl, rfl⟩ := hp
    constructor
    · rw [coordsList_get_odd hi]
      congr 1
      ring
    · rw [coordsList_get_odd hi]
      congr 1
      ring

/-- Claim C1, counterexample: the tkinter `replot` places the positive sample
`5` below the vertical center, at `hh*(1 + 5/s)`, not at the claimed
`hh - hh*5/s`.  Buffer `⟨1, [5], [0]⟩`, canvas `w = 1`, `hh = 1`, scale
`s = 5 + 1e-5`. -/
theorem C1_counterexample :
    replot (SampleBuffer.mk 1 [5] [0]) 1 1 =
      some ([0, 1000001 / 500001], [0, 1]) ∧
    (1000001 / 500001 : ℚ) ≠ 1 - 1 * 5 / (5 + eps) := by
  constructor
  · norm_num [replot, computeScale, pyMax, pyMin, List.foldl, max_def, min_def, eps,
      coordsList, List.range_succ, List.range_zero, List.getD]
  · norm_num [eps]

/-- Claim C1, witness: the pyqt5 formula applied to a concrete all-zero
one-sample buffer with canvas `2 × 2`. -/
theorem C1_witness :
    List.get? [0, 1] 1 =
      some ((((2 : ℕ) / 2 : ℕ) : ℚ) - (((2 : ℕ) / 2 : ℕ) : ℚ) *
        (SampleBuffer.mk 1 [0] [0]).Line1.getD 0 0 / eps) :=
  ((C1_projection_formulas.1 (SampleBuffer.mk 1 [0] [0]) 2 2 eps [0, 1] [0, 1] 0
    (by norm_num [computeScale, pyMax, pyMin, List.foldl, max_def, min_def, eps])
    (by norm_num [update_plot_data, computeScale, pyMax, pyMin, List.foldl, max_def,
      min_def, eps, coordsList, List.range_succ, List.range_zero, List.getD])
    (by norm_num)).1)

/-- Claim C6 (amended): for an all-zero buffer every output Y coordinate sits
at the variant's vertical-center value: exactly `height/2` in
`graph_widget.scale_values` and in the tkinter `replot` (whose `hh` is the
exact half height `winfo_height()/2`), but `⌊height/2⌋` in
`05_threads_pyqt5.update_plot_data`, which differs from `height/2` for odd
pixmap heights. -/
theorem C6_center_line :
    (∀ (g : GraphWidget) (w h : ℚ) (values : List ℚ) (i : ℕ),
        (∀ v ∈ values, v = 0) → i < g.data_width →
        (scale_values g w h values).get? (2 * i + 1) = some (h / 2)) ∧
    (∀ (s : SampleBuffer) (w hh : ℚ) (cX cY : List ℚ) (i : ℕ),
        (∀ v ∈ s.Line1, v = 0) → (∀ v ∈ s.Line2, v = 0) →
        replot s w hh = some (cX, cY) → i < s.npoints →
        cX.get? (2 * i + 1) = some hh ∧ cY.get? (2 * i + 1) = some hh) ∧
    (∀ (s : SampleBuffer) (w : ℚ) (h : ℕ) (cX cY : List ℚ) (i : ℕ),
        (∀ v ∈ s.Line1, v = 0) → (∀ v ∈ s.Line2, v = 0) →
        update_plot_data s w h = some (cX, cY) → i < s.npoints →
        cX.get? (2 * i + 1) = some ((h / 2 : ℕ) : ℚ) ∧
        cY.get? (2 * i + 1) = some ((h / 2 : ℕ) : ℚ)) := by
  refine ⟨fun g w h values i hv hi => ?_, fun s w hh cX cY i h1 h2 hr hi => ?_,
    fun s w h cX cY i h1 h2 hu hi => ?_⟩
  · simp only [scale_values]
    rw [coordsList_get_odd hi, getD_zero hv]
    norm_num [pyRound_zero]
  · simp only [replot] at hr
    cases hcs : computeScale s.Line1 s.Line2 with
    | none => rw [hcs] at hr; exact Option.noConfusion hr
    | some m =>
        rw [hcs] at hr
        have hp := Option.some.inj hr
        rw [Prod.mk.injEq] at hp
        obtain ⟨rfl, rfl⟩ := hp
        constructor <;> rw [coordsList_get_odd hi] <;>
          rw [getD_zero (by assumption)] <;> norm_num
  · simp only [update_plot_data] at hu
    cases hcs : computeScale s.Line1 s.Line2 with
    | none => rw [hcs] at hu; exact Option.noConfusion hu
    | some m =>
        rw [hcs] at hu
        have hp := Option.some.inj hu
        rw [Prod.mk.injEq] at hp
        obtain ⟨rfl, rfl⟩ := hp
        constructor <;> rw [coordsList_get_odd hi] <;>
          rw [getD_zero (by assumption)] <;> norm_num

/-- Claim C6, counterexample: with pixmap height `3` (odd) and an all-zero
buffer, `update_plot_data` places the Y coordinates at `⌊3/2⌋ = 1`, not at
the claimed exact `height/2 = 3/2`. -/
theorem C6_counterexample :
    update_plot_data (SampleBuffer.mk 1 [0] [0]) 4 3 = some ([0, 1], [0, 1]) ∧
    (1 : ℚ) ≠ 3 / 2 := by
  constructor
  · norm_num [update_plot_data, computeScale, pyMax, pyMin, List.foldl, max_def,
      min_def, eps, coordsList, List.range_succ, List.range_zero, List.getD]
  · norm_num

/-- Claim C6, witness: `scale_values` on a concrete all-zero widget with
canvas `4 × 3` places the Y coordinate exactly at `3/2`. -/
theorem C6_witness :
    (scale_values (GraphWidget.mk 1 [0] [0] default_data_range) 4 3 [0]).get? 1 =
      some ((3 : ℚ) / 2) :=
  C6_center_line.1 (GraphWidget.mk 1 [0] [0] default_data_range) 4 3 [0] 0
    (by simp) (by norm_num)

/-- Claim C7 (amended): every variant produces the X coordinate
`(width * i) / n` for the i-th sample, and for every *positive* width these
form a strictly increasing, evenly spaced sequence spanning `[0, width)`;
for `width = 0` (accepted by the code) all X coordinates are `0`, so the
claim's unrestricted quantification over every target width fails. -/
theorem C7_x_spacing :
    (∀ (g : GraphWidget) (w h : ℚ) (values : List ℚ) (i : ℕ), i < g.data_width →
        (scale_values g w h values).get? (2 * i) =
          some (w * i / g.data_width)) ∧
    (∀ (s : SampleBuffer) (w hh : ℚ) (cX cY : List ℚ) (i : ℕ),
        replot s w hh = some (cX, cY) → i < s.npoints →
        cX.get? (2 * i) = some (w * i / s.npoints) ∧
        cY.get? (2 * i) = some (w * i / s.npoints)) ∧
    (∀ (w : ℚ) (n : ℕ), 0 < w →
        (∀ i j : ℕ, i < j → j < n → w * i / n < w * j / n) ∧
        (∀ i : ℕ, i < n → 0 ≤ w * i / n ∧ w * i / n < w) ∧
        (∀ i : ℕ, i + 1 < n → w * (i + 1) / n - w * i / n = w / n)) := by
  refine ⟨fun g w h values i hi => ?_, fun s w hh cX cY i hr hi => ?_,
    fun w n hw => ⟨fun i j hij hj => ?_, fun i hi => ⟨?_, ?_⟩, fun i hi => ?_⟩⟩
  · simp only [scale_values]
    rw [coordsList_get_even hi]
    congr 1
    ring
  · simp only [replot] at hr
    cases hcs : computeScale s.Line1 s.Line2 with
    | none => rw [hcs] at hr; exact Option.noConfusion hr
    | some m =>
        rw [hcs] at hr
        have hp := Option.some.inj hr
        rw [Prod.mk.injEq] at hp
        obtain ⟨rfl, rfl⟩ := hp
        constructor <;> rw [coordsList_get_even hi]
  · have hn : (0 : ℚ) < n := by
      have : 0 < n := lt_of_le_of_lt (Nat.zero_le i) (lt_trans hij hj)
      exact_mod_cast this
    apply div_lt_div_of_pos_right ?_ hn
    have : (i : ℚ) < j := by exact_mod_cast hij
    exact mul_lt_mul_of_pos_left this hw
  · have hn : (0 : ℚ) < n := by
      have : 0 < n := lt_of_le_of_lt (Nat.zero_le i) hi
      exact_mod_cast this
    positivity
  · have hn : (0 : ℚ) < n := by
      have : 0 < n := lt_of_le_of_lt (Nat.zero_le i) hi
      exact_mod_cast this
    rw [div_lt_iff hn]
    have : (i : ℚ) < n := by exact_mod_cast hi
    calc w * i < w * n := mul_lt_mul_of_pos_left this hw
      _ = w * n := rfl
  · have hn : (0 : ℚ) ≠ n := by
      have : 0 < n := by omega
      exact ne_of_lt (by exact_mod_cast this)
    field_simp
    ring

/-- Claim C7, counterexample: with target width `0` (every width is claimed)
the X coordinates of `scale_values` are all `0` — not a strictly increasing
sequence, and no value lies in the empty range `[0, 0)`. -/
theorem C7_counterexample :
    scale_values (GraphWidget.mk 2 [0, 0] [0, 0] default_data_range) 0 2 [0, 0] =
      [0, 1, 0, 1] ∧ ¬((0 : ℚ) < 0) := by
  constructor
  · norm_num [scale_values, data_range, default_data_range, coordsList, pyRound,
      List.range_succ, List.range_succ, List.range_zero, List.getD]
  · norm_num

/-- Claim C7, witness: strict increase of two consecutive X coordinates at
width `2`, `n = 2`. -/
theorem C7_witness :
    (2 : ℚ) * ((0 : ℕ) : ℚ) / ((2 : ℕ) : ℚ) < 2 * ((1 : ℕ) : ℚ) / ((2 : ℕ) : ℚ) :=
  (C7_x_spacing.2.2 2 2 (by norm_num)).1 0 1 (by norm_num) (by norm_num)

/-- Claim C9 (amended): `GraphWidget.add_value` and the tkinter
`append_values` store the given values unchanged as the newest element of
each channel; `05_threads_pyqt5.append_data`, however, truncates both values
with `int(...)` before storing them. -/
theorem C9_append_stores :
    (∀ (s : SampleBuffer) (x y : ℚ), 1 ≤ s.npoints →
        (append_values s x y).Line1.getLast? = some x ∧
        (append_values s x y).Line2.getLast? = some y) ∧
    (∀ (g : GraphWidget) (x y : ℚ) (g' : GraphWidget), add_value g x y = some g' →
        g'.Line1.getLast? = some x ∧ g'.Line2.getLast? = some y) ∧
    (∀ (s : SampleBuffer) (x y : ℚ),
        (append_data s x y).Line1.getLast? = some ((pyInt x : ℤ) : ℚ) ∧
        (append_data s x y).Line2.getLast? = some ((pyInt y : ℤ) : ℚ)) := by
  refine ⟨fun s x y hnp => ⟨getLast?_lastN hnp x, getLast?_lastN hnp y⟩,
    fun g x y g' h => ?_, fun s x y => ⟨?_, ?_⟩⟩
  · simp only [add_value] at h
    cases hcs : computeScale (lastN g.data_width (g.Line1 ++ [x]))
        (lastN g.data_width (g.Line2 ++ [y])) with
    | none => rw [hcs] at h; exact Option.noConfusion h
    | some m =>
        rw [hcs] at h
        have hg := (Option.some.inj h).symm
        obtain ⟨mx1, mn1, mx2, mn2, h1, h2, h3, h4, _⟩ := computeScale_eq_some_elim hcs
        have hne := pyMax_some_ne_nil h1
        have hdw : 1 ≤ g.data_width := by
          by_contra hc
          have h0 : g.data_width = 0 := by omega
          apply hne
          unfold lastN
          rw [h0]
          simp
        rw [hg]
        exact ⟨getLast?_lastN hdw x, getLast?_lastN hdw y⟩
  · simp only [append_data]
    rw [List.getLast?_concat]
  · simp only [append_data]
    rw [List.getLast?_concat]

/-- Claim C9, counterexample: `append_data` of `05_threads_pyqt5.py` stores
`int(3/2) = 1` — not the given value `3/2` — as the newest element. -/
theorem C9_counterexample :
    (append_data (SampleBuffer.mk 2 [0, 0] [0, 0]) (3 / 2) 0).Line1 = [0, 1] ∧
    (1 : ℚ) ≠ 3 / 2 := by
  constructor
  · norm_num [append_data, pyInt]
  · norm_num

/-- Claim C9, witness: the tkinter `append_values` stores `3/2` unchanged as
the newest element of channel A. -/
theorem C9_witness :
    (append_values (SampleBuffer.mk 2 [0, 0] [0, 0]) (3 / 2) 7).Line1.getLast? =
      some (3 / 2) :=
  (C9_append_stores.1 (SampleBuffer.mk 2 [0, 0] [0, 0]) (3 / 2) 7 (by norm_num)).1

/-- Digit run to a natural number, base 10 (the character arithmetic behind
Python's numeric string conversion). -/
def digitsToNat (ds : List Char) : ℕ :=
  ds.foldl (fun a c => 10 * a + (c.toNat - 48)) 0

/-- Decimal mantissa of a Python float literal: `digits [. digits]` with at
least one digit overall (`"1."` and `".5"` are valid, `"."` is not). -/
def parseMantissa (cs : List Char) : Option ℚ :=
  let ip := cs.takeWhile Char.isDigit
  let rest := cs.dropWhile Char.isDigit
  match rest with
  | [] => if ip.isEmpty then none else some (digitsToNat ip)
  | '.' :: fp =>
      if (ip.isEmpty && fp.isEmpty) || !fp.all Char.isDigit then none
      else some ((digitsToNat ip : ℚ) + (digitsToNat fp : ℚ) / (10 : ℚ) ^ fp.length)
  | _ => none

/-- Python's builtin `float(text)` on the finite decimal-literal fragment:
optional sign, decimal mantissa, optional `e`/`E` exponent with optional
sign.  `none` models the `ValueError` Python raises on non-numeric text.
(The builtin additionally strips surrounding whitespace and accepts
`inf`/`nan`/underscores; those forms play no role in the claims below, which
are parametric in the parser wherever generality matters.) -/
def parseFloat (cs : List Char) : Option ℚ :=
  let sgn : ℚ × List Char :=
    match cs with
    | '+' :: t => (1, t)
    | '-' :: t => (-1, t)
    | _ => (1, cs)
  let mant := sgn.2.takeWhile fun c => !(c == 'e' || c == 'E')
  let rest := sgn.2.dropWhile fun c => !(c == 'e' || c == 'E')
  match rest with
  | [] => (parseMantissa mant).map fun m => sgn.1 * m
  | _ :: ex =>
      let esgn : ℤ × List Char :=
        match ex with
        | '+' :: t => (1, t)
        | '-' :: t => (-1, t)
        | _ => (1, ex)
      if esgn.2.isEmpty || !esgn.2.all Char.isDigit then none
      else (parseMantissa mant).map fun m =>
        sgn.1 * m * (10 : ℚ) ^ (esgn.1 * (digitsToNat esgn.2 : ℤ))

/-- Python `text.split("\t")`: fields between tab characters, keeping empty
fields (`"".split` gives `[""]`, `"\t".split` gives `["", ""]`). -/
def splitOnTab : List Char → List (List Char)
  | [] => [[]]
  | c :: rest =>
      if c = '\t' then [] :: splitOnTab rest
      else
        match splitOnTab rest with
        | [] => [[c]]
        | h :: t => (c :: h) :: t

/-- `Thread.run` of `05_threads_pyqt5.py` lines 64-86, one decoded line: if
`msg[0:3] != "WOG"` the line is only printed; otherwise `data =
msg.split("\t")`, `x, y = float(data[1]), float(data[2])` and
`result.emit(x, y)`, with `IndexError`/`ValueError` caught (nothing
emitted).  Parametric in the float parser `p`. -/
def threadProcessLine (p : List Char → Option ℚ) (msg : List Char) : Option (ℚ × ℚ) :=
  if msg.take 3 ≠ ['W', 'O', 'G'] then none
  else
    match (splitOnTab msg).get? 1, (splitOnTab msg).get? 2 with
    | some f1, some f2 =>
        match p f1, p f2 with
        | some x, some y => some (x, y)
        | _, _ => none
    | _, _ => none

/-- `App.read_serial` of `04_roundtrip_tkinter.py` lines 76-97 combined with
the `App.append_values` it calls (and identically
`GuiPart.processIncoming` of `05_threads_tkinter.py` lines 153-176): the tag
and field extraction happen first; `append_values` then evaluates
`float(x)`, mutates `Line1`, and only afterwards evaluates `float(y)` — so a
`ValueError` on field 2 leaves `Line1` already mutated.  State is the pair
`(Line1, Line2)`. -/
def readSerialStep (p : List Char → Option ℚ) (np : ℕ) (st : List ℚ × List ℚ)
    (line : List Char) : List ℚ × List ℚ :=
  if line.take 3 ≠ ['W', 'O', 'G'] then st
  else
    match (splitOnTab line).get? 1, (splitOnTab line).get? 2 with
    | some fx, some fy =>
        match p fx with
        | none => st
        | some x =>
            let l1 := lastN np (st.1 ++ [x])
            match p fy with
            | none => (l1, st.2)
            | some y => (l1, lastN np (st.2 ++ [y]))
    | _, _ => st

theorem lt_length_of_get?_eq_some {α : Type} {l : List α} {n : ℕ} {a : α}
    (h : l.get? n = some a) : n < l.length := by
  by_contra hc
  rw [List.get?_eq_none.mpr (by omega)] at h
  exact Option.noConfusion h

/-- Claim C8 (amended): a full `(x, y)` pair is delivered iff the line starts
with the tag `WOG`, splits into at least three tab-separated fields, and
fields 1 and 2 both parse as floats — and in the pyqt5 thread variant
nothing else reaches the buffer.  In the tkinter variants, however, a tagged
line whose field 1 parses but whose field 2 does not mutates channel A (the
x value reaches the buffer) before the error aborts the append; all other
malformed lines leave the state unchanged there too. -/
theorem C8_frame_filtering :
    (∀ (p : List Char → Option ℚ) (msg : List Char) (x y : ℚ),
        threadProcessLine p msg = some (x, y) ↔
          (msg.take 3 = ['W', 'O', 'G'] ∧ 3 ≤ (splitOnTab msg).length ∧
            ∃ f1 f2, (splitOnTab msg).get? 1 = some f1 ∧
              (splitOnTab msg).get? 2 = some f2 ∧ p f1 = some x ∧ p f2 = some y)) ∧
    (∀ (p : List Char → Option ℚ) (np : ℕ) (st : List ℚ × List ℚ) (line : List Char),
        (line.take 3 ≠ ['W', 'O', 'G'] ∨ (splitOnTab line).length < 3 ∨
          (∃ f1, (splitOnTab line).get? 1 = some f1 ∧ p f1 = none)) →
        readSerialStep p np st line = st) ∧
    (∀ (p : List Char → Option ℚ) (np : ℕ) (st : List ℚ × List ℚ) (line : List Char)
        (f1 f2 : List Char) (x : ℚ),
        line.take 3 = ['W', 'O', 'G'] →
        (splitOnTab line).get? 1 = some f1 → (splitOnTab line).get? 2 = some f2 →
        p f1 = some x → p f2 = none →
        readSerialStep p np st line = (lastN np (st.1 ++ [x]), st.2)) := by
  refine ⟨fun p msg x y => ?_, fun p np st line hbad => ?_,
    fun p np st line f1 f2 x ht h1 h2 hp1 hp2 => ?_⟩
  · unfold threadProcessLine
    by_cases ht : msg.take 3 = ['W', 'O', 'G']
    · rw [if_neg (by simp [ht])]
      cases h1 : (splitOnTab msg).get? 1 with
      | none => simp [ht, h1]
      | some f1 =>
          cases h2 : (splitOnTab msg).get? 2 with
          | none => simp [ht, h1, h2]
          | some f2 =>
              have hlen : 3 ≤ (splitOnTab msg).length := lt_length_of_get?_eq_some h2
              cases hp1 : p f1 with
              | none => simp [ht, h1, h2, hp1]
              | some xv =>
                  cases hp2 : p f2 with
                  | none => simp [ht, h1, h2, hp1, hp2]
                  | some yv => simp [ht, h1, h2, hp1, hp2, hlen, and_comm]
    · rw [if_pos ht]
      simp [ht]
  · unfold readSerialStep
    by_cases ht : line.take 3 = ['W', 'O', 'G']
    · rw [if_neg (by simp [ht])]
      rcases hbad with hbad | hlen | ⟨f1, hf1, hp1⟩
      · exact absurd ht hbad
      · have h2 : (splitOnTab line).get? 2 = none := List.get?_eq_none.mpr (by omega)
        cases h1 : (splitOnTab line).get? 1 with
        | none => rw [h2]
        | some f1 => rw [h2]
      · cases h2 : (splitOnTab line).get? 2 with
        | none => rw [hf1]
        | some f2 => simp only [hf1, hp1]
    · rw [if_pos ht]
  · unfold readSerialStep
    rw [if_neg (by simp [ht]), h1, h2]
    simp only [hp1, hp2]

/-- Claim C8, counterexample to "never reaches append": processing the line
`WOG<TAB>1.0<TAB>zzz` (field 1 parses, field 2 does not) through the tkinter
path mutates channel A from `[0, 0]` to `[0, 1]` even though the line is
malformed and no pair is delivered. -/
theorem C8_counterexample :
    readSerialStep parseFloat 2 ([0, 0], [0, 0])
        ['W', 'O', 'G', '\t', '1', '.', '0', '\t', 'z', 'z', 'z'] =
      ([0, 1], [0, 0]) ∧
    (([0, 1], [0, 0]) : List ℚ × List ℚ) ≠ ([0, 0], [0, 0]) := by
  constructor
  · have hz : parseFloat ['z', 'z', 'z'] = none := by decide
    have ho : parseFloat ['1', '.', '0'] = some 1 := by
      simp +decide [parseFloat, parseMantissa, List.takeWhile, List.dropWhile,
        digitsToNat, List.foldl, List.isEmpty, List.all]
    have hsplit : splitOnTab ['W', 'O', 'G', '\t', '1', '.', '0', '\t', 'z', 'z', 'z'] =
        [['W', 'O', 'G'], ['1', '.', '0'], ['z', 'z', 'z']] := by decide
    unfold readSerialStep
    rw [if_neg (by decide), hsplit]
    simp only [List.get?]
    rw [ho, hz]
    simp [lastN]
  · simp

/-- Claim C8, witness: a well-formed line `WOG<TAB>1<TAB>2` is delivered as
the pair `(1, 2)`. -/
theorem C8_witness :
    threadProcessLine parseFloat ['W', 'O', 'G', '\t', '1', '\t', '2'] =
      some (1, 2) :=
  (C8_frame_filtering.1 parseFloat ['W', 'O', 'G', '\t', '1', '\t', '2'] 1 2).mpr
    ⟨by decide, by decide,
      ⟨['1'], ['2'], by decide, by decide,
        by simp +decide [parseFloat, parseMantissa, List.takeWhile, List.dropWhile,
          digitsToNat, List.foldl, List.isEmpty],
        by simp +decide [parseFloat, parseMantissa, List.takeWhile, List.dropWhile,
          digitsToNat, List.foldl, List.isEmpty]⟩⟩

end Serial
